import Mathlib

/-!
Shallow embedding of the cache-aware scheduler
(`src/services/cache/aware_scheduler.py`) of the Aether gateway.

Conventions of the embedding:
* SQLAlchemy rows become plain structures; nullable columns become `Option`.
* The external collaborators that live outside this repository's `src/`
  tree (health monitor circuit breaker, capability matcher, concurrency
  accounting, adaptive reservation manager, affinity store, SHA-256 tie
  break hash) are abstracted as fields of an `Externals` record: each is a
  pure function standing for one call into the collaborator.  The affinity
  store lookup returns `Except Unit _` so that a raised exception can be
  modelled (`.error ()`).
* Python float arithmetic on the reservation fraction is modelled with `ℚ`;
  `math.ceil` becomes `Int.ceil`.
* Python truthiness tests on optional strings / lists / sets / ints are
  modelled by explicit `*Truthy` helpers (None, "", [], set(), 0 are falsy).
-/

namespace Aether

/-- Embeds `GlobalModel` row: canonical model identity. -/
structure GlobalModel where
  id : String
  name : String
  is_active : Bool
  supported_capabilities : List String
deriving DecidableEq, Repr

/-- Embeds `Model` row: one provider's implementation of a `GlobalModel`.
`eff_supports_streaming` stands for `get_effective_supports_streaming()`
(inheritance logic lives outside the scheduler). -/
structure Model where
  global_model_id : String
  is_active : Bool
  eff_supports_streaming : Bool
deriving DecidableEq, Repr

/-- Embeds `ProviderAPIKey` row (the upstream credential). -/
structure ProviderAPIKey where
  id : String
  is_active : Bool
  max_concurrent : Option Int
  learned_max_concurrent : Option Int
  internal_priority : Option Int
  global_priority : Option Int
  allowed_models : Option (List String)
  cache_ttl_minutes : Int
  capabilities : List (String × Bool)
deriving DecidableEq, Repr

/-- Embeds `ProviderEndpoint` row. -/
structure ProviderEndpoint where
  id : String
  api_format : String
  is_active : Bool
  max_concurrent : Option Int
  api_keys : List ProviderAPIKey
deriving DecidableEq, Repr

/-- Embeds `Provider` row with eagerly loaded relations. -/
structure Provider where
  id : String
  name : String
  is_active : Bool
  provider_priority : Int
  endpoints : List ProviderEndpoint
  models : List Model
deriving DecidableEq, Repr

/-- Embeds `User` row: account-level allow-lists. -/
structure User where
  allowed_providers : Option (List String)
  allowed_endpoints : Option (List String)
  allowed_models : Option (List String)
deriving DecidableEq, Repr

/-- Embeds `ApiKey` row: caller-level allow-lists plus the owning `User`. -/
structure ApiKey where
  allowed_providers : Option (List String)
  allowed_endpoints : Option (List String)
  allowed_models : Option (List String)
  allowed_api_formats : Option (List String)
  user : Option User
deriving DecidableEq, Repr

/-- Embeds `ProviderCandidate` dataclass. -/
structure ProviderCandidate where
  provider : Provider
  endpoint : ProviderEndpoint
  key : ProviderAPIKey
  is_cached : Bool := false
  is_skipped : Bool := false
  skip_reason : Option String := none
deriving DecidableEq, Repr

/-- Affinity record returned by the affinity store
(`CacheAffinityManager.get_affinity`). -/
structure AffinityRecord where
  provider_id : String
  endpoint_id : String
  key_id : String
deriving DecidableEq, Repr

/-- The collaborators the scheduler calls that live outside `src/`:
health monitor, capability matcher, concurrency manager, reservation
manager, affinity store, and the SHA-256 based tie-break hash
(`int(hashlib.sha256(s.encode()).hexdigest()[:16], 16)` is abstracted as
`tie_hash : String → ℕ`, a fixed seed-free pure function). -/
structure Externals where
  circuit_status : ProviderAPIKey → Bool × Option String
  capability_match : List (String × Bool) → Option (List (String × Bool)) → Bool × Option String
  has_manager : Bool
  endpoint_count : String → Nat
  key_count : String → Nat
  reservation_frac : ProviderAPIKey → Nat → Option Int → ℚ
  affinity_lookup : String → String → String → Except Unit (Option AffinityRecord)
  tie_hash : String → Nat

/-- Python truthiness of an `Optional[str]`: `None` and `""` are falsy. -/
def strTruthy : Option String → Bool
  | none => false
  | some s => !(s == "")

/-- Python truthiness of an `Optional[int]`: `None` and `0` are falsy. -/
def natTruthy : Option Nat → Bool
  | none => false
  | some n => !(n == 0)

/-- Python truthiness of an optional dict/list: `None` and empty are falsy. -/
def listTruthy {α : Type} : Option (List α) → Bool
  | none => false
  | some [] => false
  | some (_ :: _) => true

/-- Python truthiness of an `Optional[set]`: `None` and the empty set are falsy. -/
def finsetTruthy : Option (Finset String) → Bool
  | none => false
  | some s => decide s.Nonempty

/-- Embeds `_get_effective_concurrent_limit`: fixed cap if configured, else the
learned cap, else unlimited. -/
def getEffectiveConcurrentLimit (key : ProviderAPIKey) : Option Int :=
  match key.max_concurrent with
  | none => key.learned_max_concurrent
  | some v => some v

/-- Embeds `ConcurrencySnapshot` dataclass (diagnostic phase/confidence strings are
omitted; only the numeric fields feed decisions). -/
structure ConcurrencySnapshot where
  endpoint_current : Nat
  endpoint_limit : Option Int
  key_current : Nat
  key_limit : Option Int
  is_cached_user : Bool
  reservation_frac : ℚ
deriving DecidableEq, Repr

/-- Embeds `_check_concurrent_available`: endpoint-level cap check plus key-level
check with the dynamic reservation carve-out for non-affine callers. -/
def checkConcurrentAvailable (ext : Externals) (endpoint : ProviderEndpoint)
    (key : ProviderAPIKey) (is_cached_user : Bool) : Bool × ConcurrencySnapshot :=
  let eff := getEffectiveConcurrentLimit key
  if ext.has_manager = false then
    (true,
      { endpoint_current := 0
        endpoint_limit := endpoint.max_concurrent
        key_current := 0
        key_limit := eff
        is_cached_user := is_cached_user
        reservation_frac := 0 })
  else
    let ec := ext.endpoint_count endpoint.id
    let kc := ext.key_count key.id
    let endpoint_ok : Bool :=
      match endpoint.max_concurrent with
      | some cap => decide ((ec : Int) < cap)
      | none => true
    let frac := ext.reservation_frac key kc eff
    match eff with
    | none =>
      (endpoint_ok,
        { endpoint_current := ec, endpoint_limit := endpoint.max_concurrent
          key_current := kc, key_limit := none
          is_cached_user := is_cached_user, reservation_frac := frac })
    | some limit =>
      if is_cached_user then
        (endpoint_ok && decide ((kc : Int) < limit),
          { endpoint_current := ec, endpoint_limit := endpoint.max_concurrent
            key_current := kc, key_limit := some limit
            is_cached_user := is_cached_user, reservation_frac := frac })
      else
        let available_for_new : Int := max 1 (Int.ceil ((limit : ℚ) * (1 - frac)))
        (endpoint_ok && decide ((kc : Int) < available_for_new),
          { endpoint_current := ec, endpoint_limit := endpoint.max_concurrent
            key_current := kc, key_limit := some available_for_new
            is_cached_user := is_cached_user, reservation_frac := frac })

/-- The four merged allow-lists produced by `_get_effective_restrictions`. -/
structure Restrictions where
  allowed_providers : Option (Finset String)
  allowed_endpoints : Option (Finset String)
  allowed_models : Option (Finset String)
  allowed_api_formats : Option (Finset String)
deriving DecidableEq

/-- Inner helper `merge_restrictions` of `_get_effective_restrictions`.
`set(x) if x else None` makes an empty (or absent) list fall through to
`None`; two surviving sets are intersected. -/
def mergeRestrictions (key_restriction user_restriction : Option (List String)) :
    Option (Finset String) :=
  let key_set : Option (Finset String) :=
    match key_restriction with
    | some (a :: as) => some ((a :: as).toFinset)
    | _ => none
  let user_set : Option (Finset String) :=
    match user_restriction with
    | some (a :: as) => some ((a :: as).toFinset)
    | _ => none
  match key_set, user_set with
  | some k, some u => some (k ∩ u)
  | some k, none => some k
  | none, some u => some u
  | none, none => none

/-- Embeds `_get_effective_restrictions`: merge `ApiKey`-level and `User`-level
allow-lists; API formats come from the `ApiKey` alone. -/
def getEffectiveRestrictions (user_api_key : Option ApiKey) : Restrictions :=
  match user_api_key with
  | none =>
    { allowed_providers := none, allowed_endpoints := none
      allowed_models := none, allowed_api_formats := none }
  | some ak =>
    let u := ak.user
    { allowed_providers :=
        mergeRestrictions ak.allowed_providers (u.bind (·.allowed_providers))
      allowed_endpoints :=
        mergeRestrictions ak.allowed_endpoints (u.bind (·.allowed_endpoints))
      allowed_models :=
        mergeRestrictions ak.allowed_models (u.bind (·.allowed_models))
      allowed_api_formats :=
        match ak.allowed_api_formats with
        | some (a :: as) => some ((a :: as).toFinset)
        | _ => none }

/-- The `db.query(GlobalModel).filter(name == model_name, is_active).first()`
lookup, over the catalog as an ordered list. -/
def resolveGlobalModel (catalog : List GlobalModel) (model_name : String) :
    Option GlobalModel :=
  catalog.find? (fun g => g.name == model_name && g.is_active)

/-- First active implementation of the global model among `provider.models`
(the `for model in provider.models` loop stops at the first match). -/
def firstImpl (gm_id : String) (models : List Model) : Option Model :=
  models.find? (fun m => m.global_model_id == gm_id && m.is_active)

/-- Embeds `_check_model_support_for_global_model`. -/
def checkModelSupportForGlobalModel (provider : Provider) (gm : GlobalModel)
    (is_stream : Bool) (capability_requirements : Option (List (String × Bool))) :
    Bool × Option String × Option (List String) :=
  let caps := gm.supported_capabilities
  match firstImpl gm.id provider.models with
  | none => (false, some "Provider 未实现此模型", none)
  | some m =>
    if is_stream && !m.eff_supports_streaming then
      (false, some "模型在此 Provider 不支持流式", none)
    else
      match capability_requirements, caps with
      | some (r :: rs), _ :: _ =>
        match (r :: rs).find? (fun p => p.2 && !(caps.contains p.1)) with
        | some p => (false, some ("模型不支持能力: " ++ p.1), some caps)
        | none => (true, none, some caps)
      | _, _ => (true, none, some caps)

/-- Embeds `_check_model_support`: resolve the global model, then defer. -/
def checkModelSupport (catalog : List GlobalModel) (provider : Provider)
    (model_name : String) (is_stream : Bool)
    (capability_requirements : Option (List (String × Bool))) :
    Bool × Option String × Option (List String) :=
  match resolveGlobalModel catalog model_name with
  | none => (false, some "模型不存在", none)
  | some gm => checkModelSupportForGlobalModel provider gm is_stream capability_requirements

/-- The skip-reason string built for a whitelist miss in
`_check_key_availability` (preview of first three allowed models). -/
def modelPermissionReason (allowed : List String) : String :=
  let preview := if allowed.isEmpty then "(无)" else String.intercalate ", " (allowed.take 3)
  let suffix := if 3 < allowed.length then "..." else ""
  "模型权限不匹配(允许: " ++ preview ++ suffix ++ ")"

/-- Embeds `_check_key_availability`: circuit breaker, then the `allowed_models`
whitelist (`None` = allow all, `[]` = deny all), then the key-level
capability match. -/
def checkKeyAvailability (ext : Externals) (key : ProviderAPIKey)
    (model_name : String) (capability_requirements : Option (List (String × Bool))) :
    Bool × Option String :=
  let st := ext.circuit_status key
  if st.1 = false then
    (false, some (st.2.getD "熔断器已打开"))
  else
    let model_blocked : Bool :=
      match key.allowed_models with
      | some allowed => !(allowed.contains model_name)
      | none => false
    if model_blocked then
      (false, some (modelPermissionReason (key.allowed_models.getD [])))
    else
      let cm := ext.capability_match key.capabilities capability_requirements
      if cm.1 then (true, none) else (false, cm.2)

/-- Stable insertion step: place `x` before the first element `y` with
`le x y`, i.e. after every strictly smaller element and after earlier equal
elements. -/
def sinsert {α : Type} (le : α → α → Bool) (x : α) : List α → List α
  | [] => [x]
  | y :: ys => if le x y then x :: y :: ys else y :: sinsert le x ys

/-- Stable sort (insertion sort).  Python's `sorted` and SQL `ORDER BY` are
stable sorts; for the total transitive comparators used here a stable sort's
output is unique, so this structural implementation is interchangeable with
them while remaining kernel-reducible. -/
def ssort {α : Type} (le : α → α → Bool) : List α → List α
  | [] => []
  | x :: xs => sinsert le x (ssort le xs)

/-- The tie-break hash input `f"{affinity_key}:{key_id}"`. -/
def hashInput (affinity_key key_id : String) : String :=
  affinity_key ++ ":" ++ key_id

/-- Effective internal priority of a key (`None` → sentinel 999999). -/
def keyEffInternalPriority (k : ProviderAPIKey) : Int :=
  k.internal_priority.getD 999999

/-- One priority group of `_shuffle_keys_by_internal_priority`: more than one
key and a truthy affinity key → stable sort by the tie-break hash; otherwise
`sorted(group_keys, key=lambda k: k.id)`. -/
def sortKeyGroup (h : String → Nat) (affinity_key : Option String)
    (group : List ProviderAPIKey) : List ProviderAPIKey :=
  if 1 < group.length && strTruthy affinity_key then
    (ssort (fun a b => decide (a.1 ≤ b.1))
      (group.map (fun k => (h (hashInput (affinity_key.getD "") k.id), k)))).map (·.2)
  else
    ssort (fun a b => a.id ≤ b.id) group

/-- Embeds `_shuffle_keys_by_internal_priority`: group by internal priority
(`None` → 999999), walk groups in ascending priority, order each group by
`sortKeyGroup`. -/
def shuffleKeysByInternalPriority (h : String → Nat) (keys : List ProviderAPIKey)
    (affinity_key : Option String) : List ProviderAPIKey :=
  if keys.isEmpty then []
  else
    let prios := ssort (fun a b => decide (a ≤ b))
      ((keys.map keyEffInternalPriority).eraseDups)
    prios.flatMap (fun p =>
      sortKeyGroup h affinity_key (keys.filter (fun k => keyEffInternalPriority k == p)))

/-- Effective global priority of a candidate's key (`None` → sentinel 999999,
line `global_priority if ... is not None else 999999`). -/
def candEffGlobalPriority (c : ProviderCandidate) : Int :=
  c.key.global_priority.getD 999999

/-- The `secondary_sort` tuple `(provider_priority, internal_priority, id)`
compared lexicographically; a `None` internal priority is totalised with the
999999 sentinel (Python would raise on such a comparison). -/
def secondaryLE (a b : ProviderCandidate) : Bool :=
  decide (a.provider.provider_priority < b.provider.provider_priority) ||
  (a.provider.provider_priority == b.provider.provider_priority &&
    (decide (keyEffInternalPriority a.key < keyEffInternalPriority b.key) ||
      (keyEffInternalPriority a.key == keyEffInternalPriority b.key && a.key.id ≤ b.key.id)))

/-- One global-priority group of `_sort_by_global_priority_with_hash`. -/
def sortCandGroup (h : String → Nat) (affinity_key : Option String)
    (group : List ProviderCandidate) : List ProviderCandidate :=
  if 1 < group.length && strTruthy affinity_key then
    (ssort (fun a b => decide (a.1 ≤ b.1))
      (group.map (fun c => (h (hashInput (affinity_key.getD "") c.key.id), c)))).map (·.2)
  else
    ssort secondaryLE group

/-- Embeds `_sort_by_global_priority_with_hash`: group by the key's global priority
(`None` → 999999), ascending; hash-spread inside multi-candidate groups,
`secondary_sort` otherwise. -/
def sortByGlobalPriorityWithHash (h : String → Nat) (candidates : List ProviderCandidate)
    (affinity_key : Option String) : List ProviderCandidate :=
  let prios := ssort (fun a b => decide (a ≤ b))
    ((candidates.map candEffGlobalPriority).eraseDups)
  prios.flatMap (fun p =>
    sortCandGroup h affinity_key
      (candidates.filter (fun c => candEffGlobalPriority c == p)))

/-- Embeds `_apply_priority_mode_sort`. -/
def applyPriorityModeSort (mode : String) (h : String → Nat)
    (candidates : List ProviderCandidate) (affinity_key : Option String) :
    List ProviderCandidate :=
  if candidates.isEmpty then candidates
  else if mode == "global_key" then sortByGlobalPriorityWithHash h candidates affinity_key
  else candidates

/-- Set a candidate's `is_cached` flag (the in-place mutation of the Python
dataclass, made functional). -/
def setCached (b : Bool) (c : ProviderCandidate) : ProviderCandidate :=
  { c with is_cached := b }

/-- Whether a candidate's triple matches the stored affinity record. -/
def matchesAffinity (a : AffinityRecord) (c : ProviderCandidate) : Bool :=
  c.provider.id == a.provider_id && c.endpoint.id == a.endpoint_id && c.key.id == a.key_id

/-- Embeds `_apply_cache_affinity`.  The second component records whether the
`except` branch ran (a warning was logged).  On a store failure the list is
returned as it stood; with no record, or a record matching no candidate, all
candidates are marked non-affine in unchanged order; otherwise the matching
candidates move to the front, the rest keeping their relative order. -/
def applyCacheAffinity (ext : Externals) (candidates : List ProviderCandidate)
    (affinity_key api_format global_model_id : String) :
    List ProviderCandidate × Bool :=
  match ext.affinity_lookup affinity_key api_format global_model_id with
  | .error _ => (candidates, true)
  | .ok none => (candidates.map (setCached false), false)
  | .ok (some aff) =>
    let cached := (candidates.filter (fun c => matchesAffinity aff c)).map (setCached true)
    let others := (candidates.filter (fun c => !(matchesAffinity aff c))).map (setCached false)
    if cached.isEmpty then (candidates.map (setCached false), false)
    else (cached ++ others, false)

/-- Embeds `if max_candidates and len(candidates) >= max_candidates` (0 and `None`
are both falsy). -/
def hitCap (max_candidates : Option Nat) (n : Nat) : Bool :=
  match max_candidates with
  | none => false
  | some m => !(m == 0) && m ≤ n

/-- Innermost loop of `_build_candidates`: one endpoint's (shuffled) keys.
Returns the grown accumulator and whether the `max_candidates` early return
fired. -/
def buildFromKeys (ext : Externals) (model_name : String)
    (capability_requirements : Option (List (String × Bool)))
    (max_candidates : Option Nat) (provider : Provider) (endpoint : ProviderEndpoint)
    (acc : List ProviderCandidate) :
    List ProviderAPIKey → List ProviderCandidate × Bool
  | [] => (acc, false)
  | k :: ks =>
    let avail := checkKeyAvailability ext k model_name capability_requirements
    let acc' := acc ++ [{ provider := provider, endpoint := endpoint, key := k
                          is_cached := false
                          is_skipped := !avail.1, skip_reason := avail.2 }]
    if hitCap max_candidates acc'.length then (acc', true)
    else buildFromKeys ext model_name capability_requirements max_candidates
      provider endpoint acc' ks

/-- Middle loop of `_build_candidates`: one provider's endpoints, filtered by
activity, wire-format, and the endpoint allow-list. -/
def buildFromEndpoints (ext : Externals) (target_format model_name : String)
    (affinity_key : Option String)
    (capability_requirements : Option (List (String × Bool)))
    (max_candidates : Option Nat) (allowed_endpoints : Option (Finset String))
    (provider : Provider) (acc : List ProviderCandidate) :
    List ProviderEndpoint → List ProviderCandidate × Bool
  | [] => (acc, false)
  | e :: es =>
    if !e.is_active || !(e.api_format == target_format) then
      buildFromEndpoints ext target_format model_name affinity_key
        capability_requirements max_candidates allowed_endpoints provider acc es
    else if finsetTruthy allowed_endpoints &&
        !(decide (e.id ∈ allowed_endpoints.getD ∅)) then
      buildFromEndpoints ext target_format model_name affinity_key
        capability_requirements max_candidates allowed_endpoints provider acc es
    else
      let active_keys := e.api_keys.filter (·.is_active)
      let keys := shuffleKeysByInternalPriority ext.tie_hash active_keys affinity_key
      let r := buildFromKeys ext model_name capability_requirements max_candidates
        provider e acc keys
      if r.2 then r
      else buildFromEndpoints ext target_format model_name affinity_key
        capability_requirements max_candidates allowed_endpoints provider r.1 es

/-- Outer loop of `_build_candidates`: providers whose model support check
fails are dropped wholesale. -/
def buildFromProviders (ext : Externals) (catalog : List GlobalModel)
    (target_format model_name : String) (affinity_key : Option String)
    (is_stream : Bool) (capability_requirements : Option (List (String × Bool)))
    (max_candidates : Option Nat) (allowed_endpoints : Option (Finset String))
    (acc : List ProviderCandidate) :
    List Provider → List ProviderCandidate
  | [] => acc
  | p :: ps =>
    let support := checkModelSupport catalog p model_name is_stream capability_requirements
    if !support.1 then
      buildFromProviders ext catalog target_format model_name affinity_key is_stream
        capability_requirements max_candidates allowed_endpoints acc ps
    else
      let r := buildFromEndpoints ext target_format model_name affinity_key
        capability_requirements max_candidates allowed_endpoints p acc p.endpoints
      if r.2 then r.1
      else buildFromProviders ext catalog target_format model_name affinity_key is_stream
        capability_requirements max_candidates allowed_endpoints r.1 ps

/-- Embeds `_build_candidates`. -/
def buildCandidates (ext : Externals) (catalog : List GlobalModel)
    (providers : List Provider) (target_format model_name : String)
    (affinity_key : Option String) (max_candidates : Option Nat)
    (allowed_endpoints : Option (Finset String)) (is_stream : Bool)
    (capability_requirements : Option (List (String × Bool))) :
    List ProviderCandidate :=
  buildFromProviders ext catalog target_format model_name affinity_key is_stream
    capability_requirements max_candidates allowed_endpoints [] providers

/-- Embeds `_query_providers`: active providers ordered by ascending
`provider_priority` (stable, as SQL with a stable tie order; we use the
stable `ssort`), then `offset`/`limit` applied with Python truthiness
(an offset or limit of 0 is a no-op). -/
def queryProviders (providers_db : List Provider) (provider_offset : Nat)
    (provider_limit : Option Nat) : List Provider :=
  let sorted := ssort (fun a b => decide (a.provider_priority ≤ b.provider_priority))
    (providers_db.filter (·.is_active))
  let after_offset := if provider_offset == 0 then sorted else sorted.drop provider_offset
  match provider_limit with
  | none => after_offset
  | some l => if l == 0 then after_offset else after_offset.take l

/-- Typed failures of the selection path: `ModelNotSupportedException`, and
the two `ProviderNotAvailableException` messages (`模型 ... 不可用` at offset
0, `所有Provider的资源当前不可用` after pagination). -/
inductive SchedErr where
  | modelNotSupported (model : String)
  | modelUnavailable (model : String)
  | noResources (model : String)
deriving DecidableEq, Repr

/-- Embeds `list_all_candidates`: resolve the model, merge restrictions, gate on
format/model allow-lists, page providers, filter by the provider allow-list,
build, priority-sort, and apply cache affinity.  Returns the candidate list
and the global model id. -/
def listAllCandidates (ext : Externals) (catalog : List GlobalModel)
    (providers_db : List Provider) (api_format model_name : String)
    (affinity_key : Option String) (user_api_key : Option ApiKey)
    (provider_offset : Nat) (provider_limit : Option Nat)
    (max_candidates : Option Nat) (is_stream : Bool)
    (capability_requirements : Option (List (String × Bool)))
    (priority_mode : String) :
    Except SchedErr (List ProviderCandidate × String) :=
  match resolveGlobalModel catalog model_name with
  | none => .error (.modelNotSupported model_name)
  | some gm =>
    let global_model_id := gm.id
    let r := getEffectiveRestrictions user_api_key
    let fmt_blocked : Bool :=
      finsetTruthy r.allowed_api_formats &&
        !(decide (api_format ∈ r.allowed_api_formats.getD ∅))
    if fmt_blocked then .ok ([], global_model_id)
    else
      let model_blocked : Bool :=
        finsetTruthy r.allowed_models &&
          !(decide (model_name ∈ r.allowed_models.getD ∅))
      if model_blocked then .ok ([], global_model_id)
      else
        let providers := queryProviders providers_db provider_offset provider_limit
        if providers.isEmpty then .ok ([], global_model_id)
        else
          let providers :=
            if finsetTruthy r.allowed_providers then
              providers.filter (fun p =>
                decide (p.id ∈ r.allowed_providers.getD ∅) ||
                decide (p.name ∈ r.allowed_providers.getD ∅))
            else providers
          if providers.isEmpty then .ok ([], global_model_id)
          else
            let cands := buildCandidates ext catalog providers api_format model_name
              affinity_key max_candidates r.allowed_endpoints is_stream
              capability_requirements
            let cands := applyPriorityModeSort priority_mode ext.tie_hash cands affinity_key
            let cands :=
              if strTruthy affinity_key && !cands.isEmpty then
                (applyCacheAffinity ext cands (affinity_key.getD "") api_format
                  global_model_id).1
              else cands
            .ok (cands, global_model_id)

/-- The arguments a single `select_with_cache_affinity` call closes over. -/
structure SelectCtx where
  ext : Externals
  catalog : List GlobalModel
  providers_db : List Provider
  affinity_key : String
  api_format : String
  model_name : String
  excluded_endpoints : List String
  excluded_keys : List String
  provider_batch_size : Nat
  max_candidates_per_batch : Option Nat
  priority_mode : String

/-- One `list_all_candidates` page fetch inside `select_with_cache_affinity`
(no `user_api_key`, non-streaming, no capability requirements). -/
def pageCandidates (A : SelectCtx) (offset : Nat) :
    Except SchedErr (List ProviderCandidate × String) :=
  listAllCandidates A.ext A.catalog A.providers_db A.api_format A.model_name
    (some A.affinity_key) none offset (some A.provider_batch_size)
    A.max_candidates_per_batch false none A.priority_mode

/-- The admitting loop's per-candidate test: not in either exclusion set and
the concurrency check passes (the builder's `is_skipped` flag is not
consulted by the source loop). -/
def admitCandidate (A : SelectCtx) (c : ProviderCandidate) : Bool :=
  !(A.excluded_endpoints.contains c.endpoint.id) &&
  !(A.excluded_keys.contains c.key.id) &&
  (checkConcurrentAvailable A.ext c.endpoint c.key c.is_cached).1

/-- First admitted candidate of a page. -/
def findAdmitted (A : SelectCtx) (candidates : List ProviderCandidate) :
    Option ProviderCandidate :=
  candidates.find? (admitCandidate A)

/-- The `while True` pagination loop of `select_with_cache_affinity`, with
explicit fuel; the second component counts page fetches.  An empty first
page fails with `modelUnavailable`; an empty later page ends pagination and
fails with `noResources`; otherwise the first admitted candidate's triple is
returned. -/
def selectLoop (A : SelectCtx) :
    Nat → Nat → Option (Except SchedErr (Provider × ProviderEndpoint × ProviderAPIKey) × Nat)
  | _, 0 => none
  | offset, fuel + 1 =>
    match pageCandidates A offset with
    | .error e => some (.error e, 1)
    | .ok (cands, _) =>
      if cands.isEmpty then
        if offset == 0 then some (.error (.modelUnavailable A.model_name), 1)
        else some (.error (.noResources A.model_name), 1)
      else
        match findAdmitted A cands with
        | some c => some (.ok (c.provider, c.endpoint, c.key), 1)
        | none =>
          (selectLoop A (offset + A.provider_batch_size) fuel).map
            (fun r => (r.1, r.2 + 1))

/-- Fuel that always suffices for a positive batch size (the provider list is
finite, so some page is empty). -/
def selectFuel (A : SelectCtx) : Nat :=
  A.providers_db.length + 2

/-- Embeds `select_with_cache_affinity`: run the pagination loop from offset 0. -/
def selectWithCacheAffinity (A : SelectCtx) :
    Option (Except SchedErr (Provider × ProviderEndpoint × ProviderAPIKey) × Nat) :=
  selectLoop A 0 (selectFuel A)

/-! Concrete fixtures used by witnesses and counterexamples. -/

/-- A catalog entry for the model `gpt-x`. -/
def gmFix : GlobalModel := ⟨"gm1", "gpt-x", true, []⟩

/-- An unrestricted active key. -/
def keyFix : ProviderAPIKey := ⟨"k1", true, none, none, none, none, none, 0, []⟩

/-- An active endpoint speaking the `claude` wire format. -/
def epFix : ProviderEndpoint := ⟨"e1", "claude", true, none, [keyFix]⟩

/-- An active provider implementing `gpt-x`. -/
def provFix : Provider := ⟨"p1", "P1", true, 1, [epFix], [⟨"gm1", true, true⟩]⟩

/-- Benign collaborators: healthy circuit, matching capabilities, idle
concurrency, zero reservation, no affinity record, constant hash. -/
def extFix : Externals :=
  { circuit_status := fun _ => (true, none)
    capability_match := fun _ _ => (true, none)
    has_manager := true
    endpoint_count := fun _ => 0
    key_count := fun _ => 0
    reservation_frac := fun _ _ _ => 0
    affinity_lookup := fun _ _ _ => .ok none
    tie_hash := fun _ => 0 }

/-- A baseline selection context over the fixtures. -/
def ctxFix : SelectCtx :=
  { ext := extFix, catalog := [gmFix], providers_db := [provFix]
    affinity_key := "caller1", api_format := "claude", model_name := "gpt-x"
    excluded_endpoints := [], excluded_keys := []
    provider_batch_size := 1, max_candidates_per_batch := none
    priority_mode := "provider" }

/-- Collaborators that report the circuit breaker open on every key. -/
def extCircuitOpen : Externals :=
  { extFix with circuit_status := fun _ => (false, some "熔断器已打开") }

/-- Selection context whose only key is circuit-open. -/
def ctxCircuitOpen : SelectCtx := { ctxFix with ext := extCircuitOpen }

/-- A key with a fixed concurrency cap of 5. -/
def keyCap5 : ProviderAPIKey := { keyFix with max_concurrent := some 5 }

/-- Endpoint with a hard concurrency cap of 5. -/
def epSat : ProviderEndpoint := { epFix with max_concurrent := some 5 }

/-- Provider holding only the capped endpoint. -/
def provSat : Provider := { provFix with endpoints := [epSat] }

/-- Collaborators reporting 7 live requests on every endpoint. -/
def extSaturated : Externals := { extFix with endpoint_count := fun _ => 7 }

/-- Selection context in which the single candidate's endpoint is
saturated. -/
def ctxSaturated : SelectCtx :=
  { ctxFix with ext := extSaturated, providers_db := [provSat] }

/-- A key with a global priority at or above the 999999 sentinel. -/
def keyHiPrio : ProviderAPIKey := { keyFix with id := "ka", global_priority := some 1000000 }

/-- A key lacking a global priority. -/
def keyNoPrio : ProviderAPIKey := { keyFix with id := "kb", global_priority := none }

/-- Candidate carrying the high-priority key. -/
def candHi : ProviderCandidate := { provider := provFix, endpoint := epFix, key := keyHiPrio }

/-- Candidate carrying the priority-less key. -/
def candNoPrio : ProviderCandidate := { provider := provFix, endpoint := epFix, key := keyNoPrio }

/-- Caller key with an empty (present!) model allow-list whose account allows
model `a`. -/
def akEmptyList : ApiKey := ⟨none, none, some [], none, some ⟨none, none, some ["a"]⟩⟩

/-- Caller key allowing `a, b` under an account allowing `b, c`. -/
def akBothLists : ApiKey :=
  ⟨none, none, some ["a", "b"], none, some ⟨none, none, some ["b", "c"]⟩⟩

/-- A second unrestricted key, distinct id. -/
def keyOther : ProviderAPIKey := { keyFix with id := "k2" }

/-- Candidate matching `affFix`. -/
def candMatch : ProviderCandidate := { provider := provFix, endpoint := epFix, key := keyFix }

/-- Candidate not matching `affFix` (different key id). -/
def candOther : ProviderCandidate := { provider := provFix, endpoint := epFix, key := keyOther }

/-- Stored affinity record pointing at `(p1, e1, k1)`. -/
def affFix : AffinityRecord := ⟨"p1", "e1", "k1"⟩

/-- Collaborators whose affinity store returns `affFix`. -/
def extAff : Externals := { extFix with affinity_lookup := fun _ _ _ => .ok (some affFix) }

/-- Collaborators whose affinity store raises. -/
def extStoreErr : Externals := { extFix with affinity_lookup := fun _ _ _ => .error () }

/-- A key denying every model (`allowed_models = []`). -/
def keyDenyAll : ProviderAPIKey := { keyFix with allowed_models := some [] }

/-- Two keys sharing internal priority 1 (hash tie-break fixtures). -/
def keyTieX : ProviderAPIKey := { keyFix with id := "kx", internal_priority := some 1 }

/-- Second key of the tie-break pair. -/
def keyTieY : ProviderAPIKey := { keyFix with id := "ky", internal_priority := some 1 }

/-- Hash fixture: plain string length. -/
def hashLen : String → Nat := String.length

/-- Hash fixture agreeing with `hashLen` except on the irrelevant string
`"zz"`. -/
def hashLen' : String → Nat := fun s => if s == "zz" then 1000 else s.length

/-- Collaborators with 3 live key requests and a 3/10 reservation. -/
def ext310 : Externals := { extFix with
  key_count := fun _ => 3
  reservation_frac := fun _ _ _ => 3/10 }

/-! Theorems. -/

/-- Helper: `list_all_candidates` returns an error exactly when the model
does not resolve, and that error is the typed `ModelNotSupported`. -/
lemma listAllCandidates_error_iff (ext : Externals) (catalog : List GlobalModel)
    (providers_db : List Provider) (api_format model_name : String)
    (affinity_key : Option String) (user_api_key : Option ApiKey)
    (provider_offset : Nat) (provider_limit max_candidates : Option Nat)
    (is_stream : Bool) (capability_requirements : Option (List (String × Bool)))
    (priority_mode : String) (err : SchedErr) :
    listAllCandidates ext catalog providers_db api_format model_name affinity_key
        user_api_key provider_offset provider_limit max_candidates is_stream
        capability_requirements priority_mode = .error err ↔
      (resolveGlobalModel catalog model_name = none ∧
        err = SchedErr.modelNotSupported model_name) := by
  constructor
  · intro h
    cases hres : resolveGlobalModel catalog model_name with
    | none =>
      refine ⟨rfl, ?_⟩
      simp only [listAllCandidates, hres] at h
      exact (Except.error.inj h).symm
    | some gm =>
      exfalso
      simp only [listAllCandidates, hres] at h
      repeat' split at h
      all_goals exact Except.noConfusion h
  · rintro ⟨hres, rfl⟩
    simp only [listAllCandidates, hres]

/-- C5: `list_all_candidates` (and therefore the selection path) raises the
typed `ModelNotSupported` failure exactly when the requested model name does
not resolve to an active `GlobalModel`, whatever the provider pages hold;
for a resolvable model no `ModelNotSupported` failure is raised. -/
theorem c5_model_resolution_error (ext : Externals) (catalog : List GlobalModel)
    (providers_db : List Provider) (api_format model_name : String)
    (affinity_key : Option String) (user_api_key : Option ApiKey)
    (provider_offset : Nat) (provider_limit max_candidates : Option Nat)
    (is_stream : Bool) (capability_requirements : Option (List (String × Bool)))
    (priority_mode : String) (err : SchedErr) :
    listAllCandidates ext catalog providers_db api_format model_name affinity_key
        user_api_key provider_offset provider_limit max_candidates is_stream
        capability_requirements priority_mode = .error err ↔
      (resolveGlobalModel catalog model_name = none ∧
        err = SchedErr.modelNotSupported model_name) :=
  listAllCandidates_error_iff ext catalog providers_db api_format model_name
    affinity_key user_api_key provider_offset provider_limit max_candidates
    is_stream capability_requirements priority_mode err

/-- C2: with the concurrency manager present, an effective key limit `L`, and
the endpoint cap not exceeded, a cache-affine candidate is admitted iff live
key concurrency is below `L`, a non-affine candidate is admitted iff it is
below `max 1 ⌈L·(1 − reservation)⌉`, and a non-affine candidate at zero live
concurrency is always admitted. -/
theorem c2_reservation_admission (ext : Externals) (e : ProviderEndpoint)
    (k : ProviderAPIKey) (L : Int)
    (hm : ext.has_manager = true)
    (hL : getEffectiveConcurrentLimit k = some L)
    (hEp : ∀ cap, e.max_concurrent = some cap → (ext.endpoint_count e.id : Int) < cap) :
    ((checkConcurrentAvailable ext e k true).1 = true ↔
        (ext.key_count k.id : Int) < L) ∧
    ((checkConcurrentAvailable ext e k false).1 = true ↔
        (ext.key_count k.id : Int) <
          max 1 (Int.ceil ((L : ℚ) *
            (1 - ext.reservation_frac k (ext.key_count k.id) (some L))))) ∧
    (ext.key_count k.id = 0 → (checkConcurrentAvailable ext e k false).1 = true) := by
  have hep : (match e.max_concurrent with
      | some cap => decide ((ext.endpoint_count e.id : Int) < cap)
      | none => true) = true := by
    cases h : e.max_concurrent with
    | none => rfl
    | some cap => simpa using hEp cap h
  refine ⟨?_, ?_, ?_⟩
  · simp [checkConcurrentAvailable, hm, hL, hep]
  · simp [checkConcurrentAvailable, hm, hL, hep]
  · intro h0
    simp [checkConcurrentAvailable, hm, hL, hep, h0]
    try exact lt_max_iff.mpr (Or.inl one_pos)

/-- C2 witness: cap 5, reservation 3/10, 3 live requests: affine admitted
(3 < 5). -/
theorem c2_witness :
    ext310.has_manager = true ∧
    getEffectiveConcurrentLimit keyCap5 = some 5 ∧
    ((checkConcurrentAvailable ext310 epFix keyCap5 true).1 = true ↔
      ((ext310.key_count keyCap5.id : Int) < 5)) := by
  refine ⟨rfl, rfl, ?_⟩
  exact (c2_reservation_admission ext310 epFix keyCap5 5 rfl rfl
    (by intro cap hc; simp [ext310, extFix, epFix] at hc)).1

/-- C8: a raising affinity-store lookup is caught: the candidate list is
returned in its existing order and the warning flag is set; the failure is
never surfaced. -/
theorem c8_store_failure_fallback (ext : Externals)
    (cands : List ProviderCandidate) (ak fmt gmid : String) (u : Unit)
    (h : ext.affinity_lookup ak fmt gmid = .error u) :
    applyCacheAffinity ext cands ak fmt gmid = (cands, true) := by
  simp [applyCacheAffinity, h]

/-- C8 witness: the raising store fixture falls back to the input order. -/
theorem c8_witness :
    extStoreErr.affinity_lookup "caller1" "claude" "gm1" = .error () ∧
    applyCacheAffinity extStoreErr [candMatch, candOther] "caller1" "claude" "gm1"
      = ([candMatch, candOther], true) :=
  ⟨rfl, c8_store_failure_fallback extStoreErr [candMatch, candOther]
    "caller1" "claude" "gm1" () rfl⟩

/-- C10: with a healthy circuit, a key whose `allowed_models` is the empty
list is unavailable for every model with the model-permission skip reason
(deny-all), while `allowed_models = None` never blocks on the model: the
verdict reduces to the capability match alone. -/
theorem c10_empty_whitelist_denies (ext : Externals)
    (kDeny kAll : ProviderAPIKey) (req : Option (List (String × Bool)))
    (hCd : (ext.circuit_status kDeny).1 = true) (hd : kDeny.allowed_models = some [])
    (hCa : (ext.circuit_status kAll).1 = true) (ha : kAll.allowed_models = none) :
    (∀ m, checkKeyAvailability ext kDeny m req
        = (false, some (modelPermissionReason []))) ∧
    (∀ m, checkKeyAvailability ext kAll m req
        = (if (ext.capability_match kAll.capabilities req).1 then ((true : Bool), (none : Option String))
           else (false, (ext.capability_match kAll.capabilities req).2))) := by
  constructor
  · intro m
    simp [checkKeyAvailability, hCd, hd]
  · intro m
    simp [checkKeyAvailability, hCa, ha]

/-- C10 witness: the deny-all key is refused for `gpt-x` with the permission
reason; the unrestricted key passes for any two distinct models. -/
theorem c10_witness :
    (extFix.circuit_status keyDenyAll).1 = true ∧
    keyDenyAll.allowed_models = some [] ∧
    checkKeyAvailability extFix keyDenyAll "gpt-x" none
      = (false, some (modelPermissionReason [])) ∧
    checkKeyAvailability extFix keyFix "any-model" none = (true, none) := by
  refine ⟨rfl, rfl, ?_, ?_⟩
  · exact (c10_empty_whitelist_denies extFix keyDenyAll keyFix none
      rfl rfl rfl rfl).1 "gpt-x"
  · have h := (c10_empty_whitelist_denies extFix keyDenyAll keyFix none
      rfl rfl rfl rfl).2 "any-model"
    simpa [extFix] using h

/-- C6 (failing input for the code): in global-key-priority mode a key with
`global_priority = 1000000` sorts after a key with no global priority at
all, because `None` is mapped to the sentinel 999999 — contradicting the
rule (stated both by the claim and by the function's own docstring) that
keys lacking a global priority sort after all keys that have one. -/
theorem c6_global_priority_sentinel :
    candHi.key.global_priority = some 1000000 ∧
    candNoPrio.key.global_priority = none ∧
    sortByGlobalPriorityWithHash (fun _ => 0) [candHi, candNoPrio] (some "caller1")
      = [candNoPrio, candHi] := by
  refine ⟨rfl, rfl, ?_⟩
  decide

/-- Nonemptiness of an optional allow-list (the condition under which the
source's truthiness test lets a list participate in the merge). -/
def listNE (o : Option (List String)) : Prop :=
  ∃ x xs, o = some (x :: xs)

/-- Helper: case analysis of `merge_restrictions` in terms of nonempty
lists. -/
lemma mergeRestrictions_spec (a b : Option (List String)) :
    (listNE a → listNE b →
      mergeRestrictions a b = some ((a.getD []).toFinset ∩ (b.getD []).toFinset)) ∧
    (listNE a → ¬ listNE b → mergeRestrictions a b = some ((a.getD []).toFinset)) ∧
    (¬ listNE a → listNE b → mergeRestrictions a b = some ((b.getD []).toFinset)) ∧
    (¬ listNE a → ¬ listNE b → mergeRestrictions a b = none) := by
  rcases a with _ | ⟨_ | ⟨x, xs⟩⟩ <;> rcases b with _ | ⟨_ | ⟨y, ys⟩⟩ <;>
    refine ⟨?_, ?_, ?_, ?_⟩ <;>
    simp [mergeRestrictions, listNE]

/-- C7 (amended): each effective restriction is the merge of the caller-level
and account-level lists, where the merge intersects the two allow-lists when
both are present and non-empty, keeps the one non-empty list when exactly one
is, and is unrestricted otherwise — an empty allow-list is treated as absent
rather than intersected. -/
theorem c7_restriction_merge_amended (ak : ApiKey) :
    getEffectiveRestrictions none = ⟨none, none, none, none⟩ ∧
    (getEffectiveRestrictions (some ak)).allowed_providers
      = mergeRestrictions ak.allowed_providers (ak.user.bind (·.allowed_providers)) ∧
    (getEffectiveRestrictions (some ak)).allowed_endpoints
      = mergeRestrictions ak.allowed_endpoints (ak.user.bind (·.allowed_endpoints)) ∧
    (getEffectiveRestrictions (some ak)).allowed_models
      = mergeRestrictions ak.allowed_models (ak.user.bind (·.allowed_models)) ∧
    ∀ a b : Option (List String),
      (listNE a → listNE b →
        mergeRestrictions a b = some ((a.getD []).toFinset ∩ (b.getD []).toFinset)) ∧
      (listNE a → ¬ listNE b → mergeRestrictions a b = some ((a.getD []).toFinset)) ∧
      (¬ listNE a → listNE b → mergeRestrictions a b = some ((b.getD []).toFinset)) ∧
      (¬ listNE a → ¬ listNE b → mergeRestrictions a b = none) :=
  ⟨rfl, rfl, rfl, rfl, fun a b => mergeRestrictions_spec a b⟩

/-- C7 counterexample to the claim as stated: with a present-but-empty
caller-level model list and a present account-level list, the effective
restriction is the account list, not the intersection (which would be
empty). -/
theorem c7_counterexample :
    akEmptyList.allowed_models = some [] ∧
    (akEmptyList.user.bind (·.allowed_models)) = some ["a"] ∧
    (getEffectiveRestrictions (some akEmptyList)).allowed_models
      = some ({"a"} : Finset String) ∧
    ({"a"} : Finset String) ≠ (([] : List String).toFinset ∩ (["a"] : List String).toFinset) := by
  refine ⟨rfl, rfl, ?_, ?_⟩ <;> decide

/-- C7 witness: two non-empty lists are intersected. -/
theorem c7_witness :
    listNE akBothLists.allowed_models ∧
    listNE (akBothLists.user.bind (·.allowed_models)) ∧
    (getEffectiveRestrictions (some akBothLists)).allowed_models
      = some ((["a", "b"] : List String).toFinset ∩ (["b", "c"] : List String).toFinset) := by
  refine ⟨⟨"a", ["b"], rfl⟩, ⟨"b", ["c"], rfl⟩, ?_⟩
  have h := c7_restriction_merge_amended akBothLists
  have h2 := (h.2.2.2.2 akBothLists.allowed_models
    (akBothLists.user.bind (·.allowed_models))).1 ⟨"a", ["b"], rfl⟩ ⟨"b", ["c"], rfl⟩
  exact h.2.2.2.1.trans h2

/-- C3: behaviour of `_apply_cache_affinity` on a successful lookup.  With no
record all candidates are marked non-affine in unchanged order; with a
record matching no candidate likewise; with a record matching exactly the
candidate `c`, the output is `c` (marked affine) in front of the other
candidates in their original relative order (marked non-affine), and is a
permutation of the flag-updated input. -/
theorem c3_affinity_promotion (ext : Externals) (cands : List ProviderCandidate)
    (ak fmt gmid : String) (aff : AffinityRecord) (c : ProviderCandidate) :
    (ext.affinity_lookup ak fmt gmid = .ok none →
      applyCacheAffinity ext cands ak fmt gmid = (cands.map (setCached false), false)) ∧
    (ext.affinity_lookup ak fmt gmid = .ok (some aff) →
      (cands.filter (fun x => matchesAffinity aff x) = [] →
        applyCacheAffinity ext cands ak fmt gmid = (cands.map (setCached false), false)) ∧
      (cands.filter (fun x => matchesAffinity aff x) = [c] →
        (applyCacheAffinity ext cands ak fmt gmid).1
          = setCached true c ::
            (cands.filter (fun x => !(matchesAffinity aff x))).map (setCached false) ∧
        (applyCacheAffinity ext cands ak fmt gmid).1.Perm
          (cands.map (fun x => setCached (matchesAffinity aff x) x)))) := by
  refine ⟨?_, ?_⟩
  · intro h
    simp [applyCacheAffinity, h]
  · intro h
    refine ⟨?_, ?_⟩
    · intro hf
      simp [applyCacheAffinity, h, hf]
    · intro hf
      have h1 : (applyCacheAffinity ext cands ak fmt gmid).1
          = (cands.filter (fun x => matchesAffinity aff x)).map (setCached true)
            ++ (cands.filter (fun x => !(matchesAffinity aff x))).map (setCached false) := by
        simp [applyCacheAffinity, h, hf]
      refine ⟨?_, ?_⟩
      · rw [h1, hf]
        rfl
      · rw [h1]
        have e1 : (cands.filter (fun x => matchesAffinity aff x)).map (setCached true)
            = (cands.filter (fun x => matchesAffinity aff x)).map
                (fun x => setCached (matchesAffinity aff x) x) := by
          apply List.map_congr_left
          intro x hx
          rw [(List.mem_filter.mp hx).2]
        have e2 : (cands.filter (fun x => !(matchesAffinity aff x))).map (setCached false)
            = (cands.filter (fun x => !(matchesAffinity aff x))).map
                (fun x => setCached (matchesAffinity aff x) x) := by
          apply List.map_congr_left
          intro x hx
          have hb : matchesAffinity aff x = false := by
            simpa using (List.mem_filter.mp hx).2
          rw [hb]
        rw [e1, e2, ← List.map_append]
        exact (List.filter_append_perm _ cands).map _

/-- C3 witness: a two-candidate list whose second entry matches the record is
reordered to put the affine match first. -/
theorem c3_witness :
    extAff.affinity_lookup "caller1" "claude" "gm1" = .ok (some affFix) ∧
    [candOther, candMatch].filter (fun x => matchesAffinity affFix x) = [candMatch] ∧
    (applyCacheAffinity extAff [candOther, candMatch] "caller1" "claude" "gm1").1
      = [setCached true candMatch, setCached false candOther] := by
  refine ⟨rfl, by decide, ?_⟩
  have h := ((c3_affinity_promotion extAff [candOther, candMatch] "caller1" "claude"
    "gm1" affFix candMatch).2 rfl).2 (by decide)
  exact h.1.trans (by decide)

/-- Helper: flatMap congruence. -/
lemma flatMap_congr_left {α β : Type} (l : List α) (f g : α → List β)
    (h : ∀ a ∈ l, f a = g a) : l.flatMap f = l.flatMap g := by
  rw [List.flatMap_def, List.flatMap_def, List.map_congr_left h]

/-- Helper: the key-group sort depends on the hash only through its values on
the group's concatenation strings. -/
lemma sortKeyGroup_congr (h₁ h₂ : String → Nat) (ak : String)
    (group : List ProviderAPIKey)
    (hg : ∀ k ∈ group, h₁ (hashInput ak k.id) = h₂ (hashInput ak k.id)) :
    sortKeyGroup h₁ (some ak) group = sortKeyGroup h₂ (some ak) group := by
  unfold sortKeyGroup
  have e : group.map (fun k => (h₁ (hashInput ((some ak : Option String).getD "") k.id), k))
      = group.map (fun k => (h₂ (hashInput ((some ak : Option String).getD "") k.id), k)) := by
    apply List.map_congr_left
    intro k hk
    simp only [Option.getD_some]
    rw [hg k hk]
  rw [e]

/-- Helper: the candidate-group sort depends on the hash only through its
values on the group's concatenation strings. -/
lemma sortCandGroup_congr (h₁ h₂ : String → Nat) (ak : String)
    (group : List ProviderCandidate)
    (hg : ∀ c ∈ group, h₁ (hashInput ak c.key.id) = h₂ (hashInput ak c.key.id)) :
    sortCandGroup h₁ (some ak) group = sortCandGroup h₂ (some ak) group := by
  unfold sortCandGroup
  have e : group.map (fun c => (h₁ (hashInput ((some ak : Option String).getD "") c.key.id), c))
      = group.map (fun c => (h₂ (hashInput ((some ak : Option String).getD "") c.key.id), c)) := by
    apply List.map_congr_left
    intro c hc
    simp only [Option.getD_some]
    rw [hg c hc]
  rw [e]

/-- C9: the tie-broken orders are deterministic pure functions of the key
set / candidate set and the caller's affinity key: any two hash functions
that agree on the concatenation strings `affinity_key ++ ":" ++ key_id` of
the listed keys produce identical orders, for both the internal-priority
shuffle and the global-priority group sort — so a fixed seed-free hash
(SHA-256) yields the same order on every call and across restarts. -/
theorem c9_deterministic_tie_break (h₁ h₂ : String → Nat) (ak : String)
    (keys : List ProviderAPIKey) (cands : List ProviderCandidate)
    (hk : ∀ k ∈ keys, h₁ (hashInput ak k.id) = h₂ (hashInput ak k.id))
    (hc : ∀ c ∈ cands, h₁ (hashInput ak c.key.id) = h₂ (hashInput ak c.key.id)) :
    shuffleKeysByInternalPriority h₁ keys (some ak)
      = shuffleKeysByInternalPriority h₂ keys (some ak) ∧
    sortByGlobalPriorityWithHash h₁ cands (some ak)
      = sortByGlobalPriorityWithHash h₂ cands (some ak) := by
  constructor
  · unfold shuffleKeysByInternalPriority
    by_cases he : keys.isEmpty
    · simp [he]
    · simp only [he]
      apply flatMap_congr_left
      intro p _
      apply sortKeyGroup_congr
      intro k hkmem
      exact hk k (List.mem_of_mem_filter hkmem)
  · unfold sortByGlobalPriorityWithHash
    apply flatMap_congr_left
    intro p _
    apply sortCandGroup_congr
    intro c hcmem
    exact hc c (List.mem_of_mem_filter hcmem)

/-- C9 witness: two different hash functions agreeing on the two relevant
concatenation strings order the tied keys identically. -/
theorem c9_witness :
    hashLen (hashInput "caller1" keyTieX.id) = hashLen' (hashInput "caller1" keyTieX.id) ∧
    hashLen (hashInput "caller1" keyTieY.id) = hashLen' (hashInput "caller1" keyTieY.id) ∧
    shuffleKeysByInternalPriority hashLen [keyTieX, keyTieY] (some "caller1")
      = shuffleKeysByInternalPriority hashLen' [keyTieX, keyTieY] (some "caller1") := by
  refine ⟨by decide, by decide, ?_⟩
  have hk : ∀ k ∈ [keyTieX, keyTieY],
      hashLen (hashInput "caller1" k.id) = hashLen' (hashInput "caller1" k.id) := by
    decide
  exact (c9_deterministic_tie_break hashLen hashLen' "caller1" [keyTieX, keyTieY] []
    hk (by simp)).1

/-- Helper: membership through `sinsert`. -/
lemma mem_sinsert {α : Type} {le : α → α → Bool} {x a : α} {l : List α} :
    a ∈ sinsert le x l ↔ a = x ∨ a ∈ l := by
  induction l with
  | nil => simp [sinsert]
  | cons y ys ih =>
    unfold sinsert
    split
    · simp [or_comm, or_assoc, or_left_comm]
    · simp [ih]
      tauto

/-- Helper: membership through `ssort`. -/
lemma mem_ssort {α : Type} {le : α → α → Bool} {a : α} {l : List α} :
    a ∈ ssort le l ↔ a ∈ l := by
  induction l with
  | nil => simp [ssort]
  | cons x xs ih => simp [ssort, mem_sinsert, ih]

/-- Helper: `sinsert` grows length by one. -/
lemma length_sinsert {α : Type} (le : α → α → Bool) (x : α) (l : List α) :
    (sinsert le x l).length = l.length + 1 := by
  induction l with
  | nil => rfl
  | cons y ys ih =>
    unfold sinsert
    split
    · simp
    · simp [ih]

/-- Helper: `ssort` preserves length. -/
lemma length_ssort {α : Type} (le : α → α → Bool) (l : List α) :
    (ssort le l).length = l.length := by
  induction l with
  | nil => rfl
  | cons x xs ih => simp [ssort, length_sinsert, ih]

/-- Helper: members of a sorted key group come from the group. -/
lemma mem_of_sortKeyGroup {h : String → Nat} {ak : Option String}
    {group : List ProviderAPIKey} {k : ProviderAPIKey}
    (hk : k ∈ sortKeyGroup h ak group) : k ∈ group := by
  unfold sortKeyGroup at hk
  split at hk
  · obtain ⟨p, hp, hpe⟩ := List.mem_map.mp hk
    obtain ⟨k', hk', he⟩ := List.mem_map.mp (mem_ssort.mp hp)
    rw [← hpe, ← he]
    exact hk'
  · exact mem_ssort.mp hk

/-- Helper: members of a sorted candidate group come from the group. -/
lemma mem_of_sortCandGroup {h : String → Nat} {ak : Option String}
    {group : List ProviderCandidate} {c : ProviderCandidate}
    (hc : c ∈ sortCandGroup h ak group) : c ∈ group := by
  unfold sortCandGroup at hc
  split at hc
  · obtain ⟨p, hp, hpe⟩ := List.mem_map.mp hc
    obtain ⟨c', hc', he⟩ := List.mem_map.mp (mem_ssort.mp hp)
    rw [← hpe, ← he]
    exact hc'
  · exact mem_ssort.mp hc

/-- Helper: the internal-priority shuffle only permutes its input keys. -/
lemma mem_of_shuffleKeys {h : String → Nat} {keys : List ProviderAPIKey}
    {ak : Option String} {k : ProviderAPIKey}
    (hk : k ∈ shuffleKeysByInternalPriority h keys ak) : k ∈ keys := by
  unfold shuffleKeysByInternalPriority at hk
  split at hk
  · simp at hk
  · obtain ⟨p, _, hkg⟩ := List.mem_flatMap.mp hk
    exact List.mem_of_mem_filter (mem_of_sortKeyGroup hkg)

/-- Helper: the global-priority sort only permutes its input candidates. -/
lemma mem_of_sortGlobal {h : String → Nat} {cands : List ProviderCandidate}
    {ak : Option String} {c : ProviderCandidate}
    (hc : c ∈ sortByGlobalPriorityWithHash h cands ak) : c ∈ cands := by
  unfold sortByGlobalPriorityWithHash at hc
  obtain ⟨p, _, hcg⟩ := List.mem_flatMap.mp hc
  exact List.mem_of_mem_filter (mem_of_sortCandGroup hcg)

/-- Helper: the priority-mode sort only permutes its input candidates. -/
lemma mem_of_applyPriorityModeSort {mode : String} {h : String → Nat}
    {cands : List ProviderCandidate} {ak : Option String} {c : ProviderCandidate}
    (hc : c ∈ applyPriorityModeSort mode h cands ak) : c ∈ cands := by
  unfold applyPriorityModeSort at hc
  split at hc
  · exact hc
  · split at hc
    · exact mem_of_sortGlobal hc
    · exact hc

/-- Helper: every output candidate of `_apply_cache_affinity` is an input
candidate up to the `is_cached` flag (provider, endpoint and key agree). -/
lemma applyCacheAffinity_proj {ext : Externals} {cands : List ProviderCandidate}
    {ak fmt gmid : String} {c' : ProviderCandidate}
    (hm : c' ∈ (applyCacheAffinity ext cands ak fmt gmid).1) :
    ∃ c ∈ cands, c'.provider = c.provider ∧ c'.endpoint = c.endpoint ∧ c'.key = c.key := by
  unfold applyCacheAffinity at hm
  split at hm
  · exact ⟨c', hm, rfl, rfl, rfl⟩
  · obtain ⟨c, hc, he⟩ := List.mem_map.mp hm
    exact ⟨c, hc, by rw [← he]; exact ⟨rfl, rfl, rfl⟩⟩
  · dsimp only at hm
    split at hm
    · obtain ⟨c, hc, he⟩ := List.mem_map.mp hm
      exact ⟨c, hc, by rw [← he]; exact ⟨rfl, rfl, rfl⟩⟩
    · rcases List.mem_append.mp hm with hl | hr
      · obtain ⟨c, hc, he⟩ := List.mem_map.mp hl
        exact ⟨c, List.mem_of_mem_filter hc, by rw [← he]; exact ⟨rfl, rfl, rfl⟩⟩
      · obtain ⟨c, hc, he⟩ := List.mem_map.mp hr
        exact ⟨c, List.mem_of_mem_filter hc, by rw [← he]; exact ⟨rfl, rfl, rfl⟩⟩

/-- Helper: a true model-support check exhibits an active implementation of
the resolved global model on the provider. -/
lemma checkModelSupport_impl {catalog : List GlobalModel} {p : Provider}
    {model_name : String} {is_stream : Bool}
    {req : Option (List (String × Bool))} {gm : GlobalModel}
    (hres : resolveGlobalModel catalog model_name = some gm)
    (hs : (checkModelSupport catalog p model_name is_stream req).1 = true) :
    ∃ m ∈ p.models, m.global_model_id = gm.id ∧ m.is_active = true := by
  unfold checkModelSupport checkModelSupportForGlobalModel at hs
  rw [hres] at hs
  dsimp only at hs
  cases hf : firstImpl gm.id p.models with
  | none => rw [hf] at hs; simp at hs
  | some m =>
    rw [hf] at hs
    unfold firstImpl at hf
    have hmem := List.mem_of_find?_eq_some hf
    have hpred := List.find?_some hf
    simp only [Bool.and_eq_true, beq_iff_eq, decide_eq_true_eq] at hpred
    exact ⟨m, hmem, hpred.1, hpred.2⟩

/-- Helper: a candidate emitted by the key loop either was already in the
accumulator or carries the loop's provider and endpoint and one of the
listed keys. -/
lemma buildFromKeys_mem {ext : Externals} {model_name : String}
    {req : Option (List (String × Bool))} {maxc : Option Nat}
    {prov : Provider} {ep : ProviderEndpoint} {c : ProviderCandidate} :
    ∀ {ks : List ProviderAPIKey} {acc : List ProviderCandidate},
    c ∈ (buildFromKeys ext model_name req maxc prov ep acc ks).1 →
    c ∈ acc ∨ (c.provider = prov ∧ c.endpoint = ep ∧ c.key ∈ ks) := by
  intro ks
  induction ks with
  | nil =>
    intro acc hc
    exact Or.inl hc
  | cons k ks ih =>
    intro acc hc
    unfold buildFromKeys at hc
    dsimp only at hc
    split at hc
    · rcases List.mem_append.mp hc with hl | hr
      · exact Or.inl hl
      · have he := List.mem_singleton.mp hr
        subst he
        exact Or.inr ⟨rfl, rfl, List.mem_cons_self _ _⟩
    · rcases ih hc with hl | ⟨h1, h2, h3⟩
      · rcases List.mem_append.mp hl with hll | hlr
        · exact Or.inl hll
        · have he := List.mem_singleton.mp hlr
          subst he
          exact Or.inr ⟨rfl, rfl, List.mem_cons_self _ _⟩
      · exact Or.inr ⟨h1, h2, List.mem_cons_of_mem _ h3⟩

/-- Helper: a candidate emitted by the endpoint loop either was in the
accumulator or carries an active endpoint of the right wire-format and a key
drawn from that endpoint's shuffled active keys. -/
lemma buildFromEndpoints_mem {ext : Externals} {fmt mn : String}
    {ak : Option String} {req : Option (List (String × Bool))}
    {maxc : Option Nat} {allowed : Option (Finset String)}
    {prov : Provider} {c : ProviderCandidate} :
    ∀ {es : List ProviderEndpoint} {acc : List ProviderCandidate},
    c ∈ (buildFromEndpoints ext fmt mn ak req maxc allowed prov acc es).1 →
    c ∈ acc ∨ ∃ e ∈ es, e.is_active = true ∧ e.api_format = fmt ∧
      c.provider = prov ∧ c.endpoint = e ∧
      c.key ∈ shuffleKeysByInternalPriority ext.tie_hash
        (e.api_keys.filter (·.is_active)) ak := by
  intro es
  induction es with
  | nil =>
    intro acc hc
    exact Or.inl hc
  | cons e es ih =>
    intro acc hc
    unfold buildFromEndpoints at hc
    split at hc
    · rcases ih hc with hl | ⟨e', he', rest⟩
      · exact Or.inl hl
      · exact Or.inr ⟨e', List.mem_cons_of_mem _ he', rest⟩
    · rename_i hskip
      have hok : e.is_active = true ∧ e.api_format = fmt := by
        rcases Bool.not_eq_true _ ▸ hskip with h
        simp only [Bool.or_eq_true, Bool.not_eq_true', beq_eq_false_iff_ne,
          ne_eq, Bool.not_eq_true] at hskip
        push_neg at hskip
        obtain ⟨h1, h2⟩ := hskip
        simp only [Bool.not_eq_true', Bool.not_eq_false] at h1
        have h2' : e.api_format = fmt := by
          by_contra hne
          simp [hne] at h2
        exact ⟨h1, h2'⟩
      split at hc
      · rcases ih hc with hl | ⟨e', he', rest⟩
        · exact Or.inl hl
        · exact Or.inr ⟨e', List.mem_cons_of_mem _ he', rest⟩
      · dsimp only at hc
        split at hc
        · rcases buildFromKeys_mem hc with hl | ⟨h1, h2, h3⟩
          · exact Or.inl hl
          · exact Or.inr ⟨e, List.mem_cons_self _ _, hok.1, hok.2, h1, h2, h3⟩
        · rcases ih hc with hl | ⟨e', he', rest⟩
          · rcases buildFromKeys_mem hl with hll | ⟨h1, h2, h3⟩
            · exact Or.inl hll
            · exact Or.inr ⟨e, List.mem_cons_self _ _, hok.1, hok.2, h1, h2, h3⟩
          · exact Or.inr ⟨e', List.mem_cons_of_mem _ he', rest⟩

/-- Helper: a candidate emitted by the provider loop either was in the
accumulator or belongs to a listed provider passing the model-support check,
with an active matching endpoint and a shuffled active key. -/
lemma buildFromProviders_mem {ext : Externals} {catalog : List GlobalModel}
    {fmt mn : String} {ak : Option String} {is_stream : Bool}
    {req : Option (List (String × Bool))} {maxc : Option Nat}
    {allowed : Option (Finset String)} {c : ProviderCandidate} :
    ∀ {ps : List Provider} {acc : List ProviderCandidate},
    c ∈ buildFromProviders ext catalog fmt mn ak is_stream req maxc allowed acc ps →
    c ∈ acc ∨ ∃ p ∈ ps, (checkModelSupport catalog p mn is_stream req).1 = true ∧
      ∃ e ∈ p.endpoints, e.is_active = true ∧ e.api_format = fmt ∧
        c.provider = p ∧ c.endpoint = e ∧
        c.key ∈ shuffleKeysByInternalPriority ext.tie_hash
          (e.api_keys.filter (·.is_active)) ak := by
  intro ps
  induction ps with
  | nil =>
    intro acc hc
    exact Or.inl hc
  | cons p ps ih =>
    intro acc hc
    unfold buildFromProviders at hc
    dsimp only at hc
    split at hc
    · rcases ih hc with hl | ⟨p', hp', rest⟩
      · exact Or.inl hl
      · exact Or.inr ⟨p', List.mem_cons_of_mem _ hp', rest⟩
    · rename_i hsupp
      have hsupp' : (checkModelSupport catalog p mn is_stream req).1 = true := by
        simp only [Bool.not_eq_true', Bool.not_eq_false] at hsupp
        exact hsupp
      split at hc
      · rcases buildFromEndpoints_mem hc with hl | ⟨e, he, h1, h2, h3, h4, h5⟩
        · exact Or.inl hl
        · exact Or.inr ⟨p, List.mem_cons_self _ _, hsupp', e, he, h1, h2, h3, h4, h5⟩
      · rcases ih hc with hl | ⟨p', hp', rest⟩
        · rcases buildFromEndpoints_mem hl with hll | ⟨e, he, h1, h2, h3, h4, h5⟩
          · exact Or.inl hll
          · exact Or.inr ⟨p, List.mem_cons_self _ _, hsupp', e, he, h1, h2, h3, h4, h5⟩
        · exact Or.inr ⟨p', List.mem_cons_of_mem _ hp', rest⟩

/-- Helper: every candidate built by `_build_candidates` has an active
endpoint of the requested wire-format, an active key, and a provider with an
active implementation of the resolved global model. -/
lemma buildCandidates_inv {ext : Externals} {catalog : List GlobalModel}
    {ps : List Provider} {fmt mn : String} {ak : Option String}
    {maxc : Option Nat} {allowed : Option (Finset String)} {stream : Bool}
    {req : Option (List (String × Bool))} {gm : GlobalModel}
    {c : ProviderCandidate}
    (hres : resolveGlobalModel catalog mn = some gm)
    (hc : c ∈ buildCandidates ext catalog ps fmt mn ak maxc allowed stream req) :
    c.endpoint.is_active = true ∧ c.endpoint.api_format = fmt ∧
    c.key.is_active = true ∧
    ∃ m ∈ c.provider.models, m.global_model_id = gm.id ∧ m.is_active = true := by
  unfold buildCandidates at hc
  rcases buildFromProviders_mem hc with habs | ⟨p, _, hsupp, e, _, hact, hfmt, hcp, hce, hck⟩
  · simp at habs
  · have hkey : c.key.is_active = true :=
      (List.mem_filter.mp (mem_of_shuffleKeys hck)).2
    refine ⟨?_, ?_, hkey, ?_⟩
    · rw [hce]; exact hact
    · rw [hce]; exact hfmt
    · rw [hcp]
      exact checkModelSupport_impl hres hsupp

/-- Helper: every candidate returned by `list_all_candidates` has an active
endpoint of the requested wire-format, an active key, and a provider with an
active implementation of the resolved global model. -/
lemma listAllCandidates_inv {ext : Externals} {catalog : List GlobalModel}
    {providers_db : List Provider} {fmt mn : String} {ak : Option String}
    {uak : Option ApiKey} {off : Nat} {lim maxc : Option Nat} {stream : Bool}
    {req : Option (List (String × Bool))} {mode : String}
    {cands : List ProviderCandidate} {gmid : String} {gm : GlobalModel}
    {c : ProviderCandidate}
    (hres : resolveGlobalModel catalog mn = some gm)
    (hok : listAllCandidates ext catalog providers_db fmt mn ak uak off lim maxc
      stream req mode = .ok (cands, gmid))
    (hc : c ∈ cands) :
    c.endpoint.is_active = true ∧ c.endpoint.api_format = fmt ∧
    c.key.is_active = true ∧
    ∃ m ∈ c.provider.models, m.global_model_id = gm.id ∧ m.is_active = true := by
  simp only [listAllCandidates, hres] at hok
  repeat' split at hok
  all_goals simp only [Except.ok.injEq, Prod.mk.injEq] at hok
  all_goals rw [← hok.1] at hc
  all_goals first
    | exact absurd hc (List.not_mem_nil c)
    | (obtain ⟨c0, hc0, h1, h2, h3⟩ := applyCacheAffinity_proj hc
       rw [h1, h2, h3]
       exact buildCandidates_inv hres (mem_of_applyPriorityModeSort hc0))
    | exact buildCandidates_inv hres (mem_of_applyPriorityModeSort hc)

/-- Helper: a successful `selectLoop` outcome names an admitted candidate of
some fetched page. -/
lemma selectLoop_ok {A : SelectCtx}
    {t : Provider × ProviderEndpoint × ProviderAPIKey} :
    ∀ {fuel offset n : Nat}, selectLoop A offset fuel = some (.ok t, n) →
    ∃ off cands gmid c, pageCandidates A off = .ok (cands, gmid) ∧ c ∈ cands ∧
      admitCandidate A c = true ∧ t = (c.provider, c.endpoint, c.key) := by
  intro fuel
  induction fuel with
  | zero =>
    intro offset n h
    simp [selectLoop] at h
  | succ f ih =>
    intro offset n h
    unfold selectLoop at h
    cases hpage : pageCandidates A offset with
    | error e =>
      rw [hpage] at h
      simp at h
    | ok pr =>
      obtain ⟨cands, gmid⟩ := pr
      rw [hpage] at h
      dsimp only at h
      split at h
      · split at h <;> simp at h
      · cases hfind : findAdmitted A cands with
        | some c =>
          rw [hfind] at h
          simp only [Option.some.injEq, Prod.mk.injEq] at h
          have hmem : c ∈ cands :=
            List.mem_of_find?_eq_some hfind
          have hadm : admitCandidate A c = true :=
            List.find?_some hfind
          have ht : Except.ok (c.provider, c.endpoint, c.key) = Except.ok t := h.1
          exact ⟨offset, cands, gmid, c, hpage, hmem, hadm,
            (Except.ok.inj ht).symm⟩
        | none =>
          rw [hfind] at h
          obtain ⟨⟨r, m⟩, hr, heq⟩ := Option.map_eq_some'.mp h
          simp only [Prod.mk.injEq] at heq
          rw [heq.1] at hr
          exact ih hr

/-- C1 (amended): every returned triple has an endpoint and key outside the
caller-supplied exclusion sets, an active endpoint of the requested
wire-format, an active key that passed the concurrency check, and a provider
actively implementing the requested model.  (The builder's `is_skipped`
verdict — circuit breaker, key whitelist, capability match — is *not*
consulted by the admitting loop, so no circuit-breaker guarantee holds; see
the counterexample.) -/
theorem c1_selection_soundness_amended (A : SelectCtx) (gm : GlobalModel)
    (p : Provider) (e : ProviderEndpoint) (k : ProviderAPIKey) (n : Nat)
    (hres : resolveGlobalModel A.catalog A.model_name = some gm)
    (hsel : selectWithCacheAffinity A = some (.ok (p, e, k), n)) :
    A.excluded_endpoints.contains e.id = false ∧
    A.excluded_keys.contains k.id = false ∧
    e.is_active = true ∧ e.api_format = A.api_format ∧ k.is_active = true ∧
    (∃ m ∈ p.models, m.global_model_id = gm.id ∧ m.is_active = true) ∧
    (∃ b, (checkConcurrentAvailable A.ext e k b).1 = true) := by
  obtain ⟨off, cands, gmid, c, hpage, hmem, hadm, ht⟩ := selectLoop_ok hsel
  obtain ⟨hp, he, hk⟩ : p = c.provider ∧ e = c.endpoint ∧ k = c.key := by
    simpa [Prod.ext_iff] using ht
  subst hp; subst he; subst hk
  have hinv := listAllCandidates_inv hres hpage hmem
  simp only [admitCandidate, Bool.and_eq_true, Bool.not_eq_true'] at hadm
  exact ⟨hadm.1.1, hadm.1.2, hinv.1, hinv.2.1, hinv.2.2.1, hinv.2.2.2,
    ⟨c.is_cached, hadm.2⟩⟩

/-- C1 counterexample to the claim as stated: with the circuit breaker open
on the only key, the builder marks the single candidate `is_skipped`, yet
the admitting loop still returns exactly that triple — the returned key is
circuit-open at selection time. -/
theorem c1_counterexample :
    selectWithCacheAffinity ctxCircuitOpen = some (.ok (provFix, epFix, keyFix), 1) ∧
    (ctxCircuitOpen.ext.circuit_status keyFix).1 = false ∧
    pageCandidates ctxCircuitOpen 0 = .ok
      ([{ provider := provFix, endpoint := epFix, key := keyFix,
          is_cached := false, is_skipped := true,
          skip_reason := some "熔断器已打开" }], "gm1") := by
  exact ⟨rfl, rfl, rfl⟩

/-- C1 witness: the healthy fixture run returns the fixture triple, and the
amended guarantees hold of it. -/
theorem c1_witness :
    resolveGlobalModel ctxFix.catalog ctxFix.model_name = some gmFix ∧
    selectWithCacheAffinity ctxFix = some (.ok (provFix, epFix, keyFix), 1) ∧
    (ctxFix.excluded_endpoints.contains epFix.id = false ∧
      ctxFix.excluded_keys.contains keyFix.id = false ∧
      epFix.is_active = true ∧ epFix.api_format = ctxFix.api_format ∧
      keyFix.is_active = true ∧
      (∃ m ∈ provFix.models, m.global_model_id = gmFix.id ∧ m.is_active = true) ∧
      (∃ b, (checkConcurrentAvailable ctxFix.ext epFix keyFix b).1 = true)) := by
  refine ⟨rfl, rfl, ?_⟩
  exact c1_selection_soundness_amended ctxFix gmFix provFix epFix keyFix 1 rfl rfl

/-- Helper: paging past the active providers yields no providers. -/
lemma queryProviders_nil {providers_db : List Provider} {off : Nat}
    {lim : Option Nat}
    (hoff : (providers_db.filter (·.is_active)).length ≤ off) :
    queryProviders providers_db off lim = [] := by
  unfold queryProviders
  have hlen : (ssort (fun a b => decide (a.provider_priority ≤ b.provider_priority))
      (providers_db.filter (·.is_active))).length
      = (providers_db.filter (·.is_active)).length := length_ssort _ _
  have hafter : (if (off == 0) = true then
      ssort (fun a b => decide (a.provider_priority ≤ b.provider_priority))
        (providers_db.filter (·.is_active))
    else (ssort (fun a b => decide (a.provider_priority ≤ b.provider_priority))
        (providers_db.filter (·.is_active))).drop off) = [] := by
    split
    · rename_i h0
      have h0' : off = 0 := by simpa using h0
      subst h0'
      have : (ssort (fun a b => decide (a.provider_priority ≤ b.provider_priority))
          (providers_db.filter (·.is_active))).length = 0 := by omega
      exact List.length_eq_zero.mp this
    · exact List.drop_eq_nil_of_le (by omega)
  dsimp only
  rw [hafter]
  cases lim with
  | none => rfl
  | some l => split <;> simp

/-- Helper: with a resolvable model and an offset past the active providers,
a page fetch returns an empty candidate list. -/
lemma pageCandidates_empty_of_offset {A : SelectCtx} {gm : GlobalModel}
    {offset : Nat}
    (hres : resolveGlobalModel A.catalog A.model_name = some gm)
    (hoff : (A.providers_db.filter (·.is_active)).length ≤ offset) :
    pageCandidates A offset = .ok ([], gm.id) := by
  unfold pageCandidates
  simp only [listAllCandidates, hres]
  rw [queryProviders_nil hoff]
  simp [getEffectiveRestrictions, finsetTruthy]

/-- Helper: with a resolvable model the select loop always terminates once
enough fuel covers the provider pages. -/
lemma selectLoop_total {A : SelectCtx} {gm : GlobalModel}
    (hres : resolveGlobalModel A.catalog A.model_name = some gm) :
    ∀ (fuel offset : Nat),
      (A.providers_db.filter (·.is_active)).length
        ≤ offset + fuel * A.provider_batch_size →
      (selectLoop A offset (fuel + 1)).isSome := by
  intro fuel
  induction fuel with
  | zero =>
    intro offset hb
    have hpg := pageCandidates_empty_of_offset hres (by simpa using hb)
    unfold selectLoop
    rw [hpg]
    dsimp only
    split
    · split <;> simp
    · simp at *
  | succ f ih =>
    intro offset hb
    unfold selectLoop
    cases hpage : pageCandidates A offset with
    | error e => simp
    | ok pr =>
      obtain ⟨cands, gmid⟩ := pr
      dsimp only
      split
      · split <;> simp
      · cases hfind : findAdmitted A cands with
        | some c => simp
        | none =>
          dsimp only
          have hrec := ih (offset + A.provider_batch_size) (by
            have hsm : (f + 1) * A.provider_batch_size
                = f * A.provider_batch_size + A.provider_batch_size :=
              Nat.succ_mul _ _
            omega)
          obtain ⟨x, hx⟩ := Option.isSome_iff_exists.mp hrec
          simp [hx]

/-- Helper: with a resolvable model the loop's only failures are the two
`ProviderNotAvailable` messages. -/
lemma selectLoop_error_shape {A : SelectCtx} {gm : GlobalModel}
    (hres : resolveGlobalModel A.catalog A.model_name = some gm) :
    ∀ {fuel offset : Nat} {er : SchedErr} {n : Nat},
      selectLoop A offset fuel = some (.error er, n) →
      er = .modelUnavailable A.model_name ∨ er = .noResources A.model_name := by
  intro fuel
  induction fuel with
  | zero =>
    intro o er n h
    simp [selectLoop] at h
  | succ f ih =>
    intro o er n h
    unfold selectLoop at h
    cases hpage : pageCandidates A o with
    | error e =>
      exfalso
      have := (listAllCandidates_error_iff A.ext A.catalog A.providers_db
        A.api_format A.model_name (some A.affinity_key) none o
        (some A.provider_batch_size) A.max_candidates_per_batch false none
        A.priority_mode e).mp hpage
      rw [hres] at this
      exact Option.noConfusion this.1
    | ok pr =>
      obtain ⟨cands, gmid⟩ := pr
      rw [hpage] at h
      dsimp only at h
      split at h
      · split at h <;>
          (simp only [Option.some.injEq, Prod.mk.injEq, Except.error.injEq] at h)
        · exact Or.inl h.1.symm
        · exact Or.inr h.1.symm
      · cases hfind : findAdmitted A cands with
        | some c =>
          rw [hfind] at h
          simp at h
        | none =>
          rw [hfind] at h
          obtain ⟨⟨r, m⟩, hr, heq⟩ := Option.map_eq_some'.mp h
          simp only [Prod.mk.injEq] at heq
          rw [heq.1] at hr
          exact ih hr

/-- Helper: if pages `0 .. N−2` are nonempty with no admissible candidate and
page `N−1` is empty, the loop starting at page `i` fails with `noResources`
after exactly `N − i` further fetches. -/
lemma selectLoop_pages {A : SelectCtx} {N : Nat}
    (hb : 1 ≤ A.provider_batch_size) (hN : 2 ≤ N)
    (hpages : ∀ k, k + 1 < N → ∃ cands gmid,
      pageCandidates A (k * A.provider_batch_size) = .ok (cands, gmid) ∧
      cands ≠ [] ∧ findAdmitted A cands = none)
    (hlast : ∃ gmid,
      pageCandidates A ((N - 1) * A.provider_batch_size) = .ok ([], gmid)) :
    ∀ fuel i, i < N → N - i ≤ fuel →
      selectLoop A (i * A.provider_batch_size) fuel
        = some (.error (.noResources A.model_name), N - i) := by
  intro fuel
  induction fuel with
  | zero =>
    intro i hi hf
    omega
  | succ f ih =>
    intro i hi hf
    by_cases hlastc : i = N - 1
    · subst hlastc
      obtain ⟨gmid, hpg⟩ := hlast
      unfold selectLoop
      rw [hpg]
      have hoffpos : ((N - 1) * A.provider_batch_size == 0) = false := by
        have h1 : 1 * 1 ≤ (N - 1) * A.provider_batch_size :=
          Nat.mul_le_mul (by omega) hb
        simp only [beq_eq_false_iff_ne, ne_eq]
        omega
      rw [show N - (N - 1) = 1 from by omega]
      simp [hoffpos]
    · have hi1 : i + 1 < N := by omega
      obtain ⟨cands, gmid, hpg, hne, hfind⟩ := hpages i hi1
      unfold selectLoop
      rw [hpg]
      dsimp only
      have hie : cands.isEmpty = false := by
        cases cands with
        | nil => exact absurd rfl hne
        | cons a as => rfl
      simp only [hie, Bool.false_eq_true, if_false, hfind]
      have harith : i * A.provider_batch_size + A.provider_batch_size
          = (i + 1) * A.provider_batch_size := (Nat.succ_mul i _).symm
      rw [harith, ih (i + 1) hi1 (by omega)]
      have hsub : N - (i + 1) + 1 = N - i := by omega
      simp [hsub]

/-- C4: with a resolvable model and positive batch size: an empty first page
fails with `ProviderNotAvailable` (model unavailable) after one fetch; when
the first `N−1` pages are nonempty with no admissible candidate and the
`N`-th page is empty (ending pagination), selection fails with
`ProviderNotAvailable` (no resources) after exactly `N` page fetches; and in
all cases the loop terminates with either an admitted triple or one of those
two typed failures. -/
theorem c4_pagination_exhaustion (A : SelectCtx) (gm : GlobalModel)
    (hb : 1 ≤ A.provider_batch_size)
    (hres : resolveGlobalModel A.catalog A.model_name = some gm) :
    (∀ gmid, pageCandidates A 0 = .ok ([], gmid) →
      selectWithCacheAffinity A
        = some (.error (.modelUnavailable A.model_name), 1)) ∧
    (∀ N, 2 ≤ N →
      (∀ k, k + 1 < N → ∃ cands gmid,
        pageCandidates A (k * A.provider_batch_size) = .ok (cands, gmid) ∧
        cands ≠ [] ∧ findAdmitted A cands = none) →
      (∃ gmid,
        pageCandidates A ((N - 1) * A.provider_batch_size) = .ok ([], gmid)) →
      selectWithCacheAffinity A = some (.error (.noResources A.model_name), N)) ∧
    (∃ r n, selectWithCacheAffinity A = some (r, n) ∧
      ((∃ t, r = .ok t) ∨ r = .error (.modelUnavailable A.model_name) ∨
        r = .error (.noResources A.model_name))) := by
  refine ⟨?_, ?_, ?_⟩
  · intro gmid hpg
    unfold selectWithCacheAffinity selectFuel selectLoop
    rw [hpg]
    simp
  · intro N hN hpages hlast
    have hbound : N ≤ A.providers_db.length + 2 := by
      obtain ⟨cands, gmid, hpg, hne, _⟩ := hpages (N - 2) (by omega)
      have hlt : ¬ ((A.providers_db.filter (·.is_active)).length
          ≤ (N - 2) * A.provider_batch_size) := by
        intro hle
        have hempty := pageCandidates_empty_of_offset hres hle
        have h2 := hpg.symm.trans hempty
        simp only [Except.ok.injEq, Prod.mk.injEq] at h2
        exact hne h2.1
      have h1 : (N - 2) ≤ (N - 2) * A.provider_batch_size :=
        Nat.le_mul_of_pos_right _ hb
      have h2 : (A.providers_db.filter (·.is_active)).length
          ≤ A.providers_db.length := List.length_filter_le _ _
      omega
    have h := selectLoop_pages hb hN hpages hlast
      (A.providers_db.length + 2) 0 (by omega) (by omega)
    rw [Nat.zero_mul, Nat.sub_zero] at h
    exact h
  · have hfl : (A.providers_db.filter (·.is_active)).length
        ≤ 0 + (A.providers_db.length + 1) * A.provider_batch_size := by
      have h1 : A.providers_db.length + 1
          ≤ (A.providers_db.length + 1) * A.provider_batch_size :=
        Nat.le_mul_of_pos_right _ hb
      have h2 : (A.providers_db.filter (·.is_active)).length
          ≤ A.providers_db.length := List.length_filter_le _ _
      omega
    have ht := selectLoop_total hres (A.providers_db.length + 1) 0 hfl
    have ht' : (selectWithCacheAffinity A).isSome := ht
    obtain ⟨⟨r, n⟩, hr⟩ := Option.isSome_iff_exists.mp ht'
    refine ⟨r, n, hr, ?_⟩
    cases r with
    | ok t => exact Or.inl ⟨t, rfl⟩
    | error er =>
      rcases selectLoop_error_shape hres hr with h | h
      · exact Or.inr (Or.inl (by rw [h]))
      · exact Or.inr (Or.inr (by rw [h]))

/-- C4 witness: one saturated provider with batch size 1: page 0 holds one
inadmissible candidate, page 1 is empty, and selection fails with
`noResources` after exactly 2 page fetches. -/
theorem c4_witness :
    1 ≤ ctxSaturated.provider_batch_size ∧
    resolveGlobalModel ctxSaturated.catalog ctxSaturated.model_name = some gmFix ∧
    selectWithCacheAffinity ctxSaturated
      = some (.error (.noResources "gpt-x"), 2) := by
  refine ⟨by decide, rfl, ?_⟩
  have h := (c4_pagination_exhaustion ctxSaturated gmFix (by decide) rfl).2.1 2
    (by omega) ?hp ?hl
  · exact h
  case hp =>
    intro k hk
    have hk0 : k = 0 := by omega
    subst hk0
    exact ⟨[{ provider := provSat, endpoint := epSat, key := keyFix,
              is_cached := false, is_skipped := false, skip_reason := none }],
      "gm1", rfl, by decide, rfl⟩
  case hl => exact ⟨"gm1", rfl⟩

end Aether
